import Mathlib

/-!
Verification of the classifier and traversal logic of `project_dumper.py`
(repository `repo-tree-generator`).

The embedding is a direct shallow translation of the source:

* a `pathlib.Path` value is represented by its ordered sequence of parts
  (`List String`); `Path.name` is the last part and `Path.suffix` is
  computed exactly as CPython does (position of the last `'.'` in the
  name, which must be neither the first nor the last character);
* the filesystem-stat result for a path is an `Option Nat`
  (`none` models `path.stat()` raising, `some sz` models `st_size = sz`);
* the rule tables (`IGNORED_DIRS`, ...) are the literal sets from the
  source, kept as lists (only membership is ever used);
* `os.walk(root, topdown=True)` over a snapshot of the filesystem is
  modelled by a first-child/next-sibling tree (`Forest`): each directory
  carries its name, its own stat result, its files (name + stat result)
  and its subdirectories; `generate_tree` is the literal translation of
  the walk loop in the source, with Python's in-place pruning
  `dirs[:] = [d for d in dirs if not is_ignored(...)]` realised by
  skipping pruned subtrees before descending.
-/

namespace ProjectDumper

/-! ## Rule tables (lines 6-56 of the source) -/

/-- `IGNORED_DIRS` (source lines 6-11). -/
def IGNORED_DIRS : List String :=
  [".git", "__pycache__", "node_modules", "venv", ".venv",
   ".idea", ".vscode", "build", "dist", "docs",
   ".parcel-cache", ".cache", ".next", ".husky", ".pnpm-store",
   "coverage", "tmp", "temp", ".terraform"]

/-- `IGNORED_EXTENSIONS` (source lines 14-25). -/
def IGNORED_EXTENSIONS : List String :=
  [".pyc", ".pyo", ".pyd", ".so", ".dll", ".exe",
   ".png", ".jpg", ".jpeg", ".gif", ".bmp", ".tiff", ".ico",
   ".svg", ".webp", ".avif",
   ".zip", ".tar", ".gz", ".rar", ".7z",
   ".pdf",
   ".doc", ".docx", ".xls", ".xlsx", ".ppt", ".pptx",
   ".db", ".sqlite", ".sqlite3",
   ".lock", ".log",
   ".parquet", ".h5", ".hdf5", ".pt", ".onnx", ".tif",
   ".shp", ".dbf", ".nc"]

/-- `IGNORED_FILENAMES` (source lines 28-32). -/
def IGNORED_FILENAMES : List String :=
  ["yarn.lock", "pnpm-lock.yaml", "package-lock.json",
   ".DS_Store", ".env", ".env.local", ".env.production", ".env.development",
   ".python-version", ".tool-versions"]

/-- `MAX_FILE_SIZE_BYTES = 2 * 1024 * 1024` (source line 35). -/
def MAX_FILE_SIZE_BYTES : Nat := 2 * 1024 * 1024

/-- `ALLOWED_CODE_EXTENSIONS` (source lines 38-43). -/
def ALLOWED_CODE_EXTENSIONS : List String :=
  [".py", ".ts", ".tsx", ".js", ".jsx", ".java", ".kt", ".go",
   ".rs", ".rb", ".php", ".c", ".cc", ".cpp", ".h", ".hpp",
   ".cs", ".sql", ".yml", ".yaml", ".toml", ".ini", ".cfg",
   ".prisma", ".graphql", ".gql", ".md"]

/-- `SCHEMA_HINT_DIRS` (source lines 46-49). -/
def SCHEMA_HINT_DIRS : List String :=
  ["prisma", "migrations", "migration", "db", "database",
   "sql", "schema", "alembic", "migrate", "migrations_sql", "liquibase", "flyway"]

/-- `SCHEMA_HINT_NAMES` (source lines 52-56). -/
def SCHEMA_HINT_NAMES : List String :=
  ["schema.prisma", "schema.sql", "init.sql", "migration.sql",
   "migration", "migrations", "entities", "models", "alembic.ini",
   "seeder", "seed.sql", "DDL.sql"]

/-- The inline bulk-data extension literal at source line 112. -/
def BULK_DATA_EXTENSIONS : List String :=
  [".csv", ".json", ".jsonl", ".ndjson", ".geojson"]

/-- The inline ORM-model extension literal at source line 82. -/
def ORM_MODEL_EXTENSIONS : List String :=
  [".ts", ".js", ".tsx", ".jsx", ".py", ".rb", ".java", ".kt"]

/-- The inline ORM-hint segment literal at source line 81. -/
def ORM_HINT_SEGMENTS : List String :=
  ["entities", "entity", "models", "model"]

/-! ## Python string primitives used by the source -/

/-- Python `str.lower()` (ASCII-relevant part; the source's tables and
extensions are ASCII). -/
def strLower (s : String) : String := String.mk (s.data.map Char.toLower)

/-- `Path.name`: the final path component. -/
def pyName (parts : List String) : String := parts.getLastD ""

/-- Index of the last occurrence of `c`, as Python `str.rfind` (`-1` when
absent). -/
def pyRfindAux (c : Char) : List Char → Option Nat
  | [] => none
  | x :: rest =>
    match pyRfindAux c rest with
    | some i => some (i + 1)
    | none => if x = c then some 0 else none

/-- Python `str.rfind(c)`. -/
def pyRfind (c : Char) (s : List Char) : Int :=
  match pyRfindAux c s with
  | some i => (i : Int)
  | none => -1

/-- `Path.suffix` exactly as CPython computes it: the substring from the
last `'.'` on, provided that dot is neither the first nor the last
character of the name; otherwise the empty string. -/
def pySuffix (name : String) : String :=
  let cs := name.data
  let i := pyRfind '.' cs
  if 0 < i ∧ i < (cs.length : Int) - 1 then String.mk (cs.drop i.toNat) else ""

/-- Python's `key in name` substring test. -/
def listHasSub (key : List Char) : List Char → Bool
  | [] => decide (key = [])
  | c :: rest => List.isPrefixOf key (c :: rest) || listHasSub key rest

/-! ## The classifier (source lines 58-129) -/

/-- `looks_like_schema_file` (source lines 58-84).  The early-`return`
chain of the source is written as a boolean disjunction; the final ORM
branch `return path.suffix.lower() in {...}` guarded by
`any(seg in parts ...)` is the last disjunct (when the guard is false the
source reaches `return False`, so guard-and-membership is a conjunction). -/
def looks_like_schema_file (parts : List String) : Bool :=
  -- line 64: `if parts & SCHEMA_HINT_DIRS: return True`
  (parts.map strLower).any (fun p => SCHEMA_HINT_DIRS.contains p)
  -- lines 68-70: `for key in SCHEMA_HINT_NAMES: if key in name: return True`
  || SCHEMA_HINT_NAMES.any (fun key => listHasSub key.data (strLower (pyName parts)).data)
  -- line 73: `if path.suffix.lower() == ".sql": return True`
  || decide (strLower (pySuffix (pyName parts)) = ".sql")
  -- line 77: `if path.suffix.lower() == ".prisma": return True`
  || decide (strLower (pySuffix (pyName parts)) = ".prisma")
  -- lines 81-82: ORM entity/model files
  || (ORM_HINT_SEGMENTS.any (fun seg => (parts.map strLower).contains seg)
      && ORM_MODEL_EXTENSIONS.contains (strLower (pySuffix (pyName parts))))

/-- `is_large` (source lines 86-91): `none` models `path.stat()` raising,
in which case the source returns `False`. -/
def is_large (statSize : Option Nat) : Bool :=
  match statSize with
  | some sz => decide (sz > MAX_FILE_SIZE_BYTES)
  | none => false

/-- `is_ignored` (source lines 93-129).  The early-`return` chain is a
boolean disjunction, except for the schema-like exemption at lines
119-120 (`if looks_like_schema_file(path): return False`), which cuts off
the two remaining checks and is therefore kept as an `if`. -/
def is_ignored (parts : List String) (output_filename : String)
    (isFile : Bool) (statSize : Option Nat) : Bool :=
  -- lines 96-97: the output file itself
  decide (pyName parts = output_filename)
  -- lines 100-101: specific filenames
  || IGNORED_FILENAMES.contains (pyName parts)
  -- lines 103-105: directories by any segment
  || parts.any (fun part => IGNORED_DIRS.contains part)
  -- lines 107-109: large files
  || (isFile && is_large statSize)
  -- lines 111-115: bulk data files unless tiny schema-like
  || (BULK_DATA_EXTENSIONS.contains (strLower (pySuffix (pyName parts)))
      && (!looks_like_schema_file parts || is_large statSize))
  -- lines 117-127: code-like allowlist with the schema-like exemption,
  -- then the explicitly ignored extensions
  || (if isFile && looks_like_schema_file parts then false
      else (isFile && !(ALLOWED_CODE_EXTENSIONS.contains (strLower (pySuffix (pyName parts)))))
        || IGNORED_EXTENSIONS.contains (strLower (pySuffix (pyName parts))))

/-! ## The traversal (source lines 131-161)

`os.walk(root_path, topdown=True)` yields `(root, dirs, files)` for the
start directory first and then, after `dirs` has been pruned in place,
recursively for each retained subdirectory in listing order.  A snapshot
of the directory tree below the root is a `Forest` in
first-child/next-sibling form; each node carries the directory's name,
its own stat result (used when `is_ignored` is asked about the directory)
and its regular files. -/

/-- A regular file in the snapshot: its name and its stat result
(`none` = `stat` raises for it). -/
structure FileEnt where
  name : String
  size : Option Nat
deriving DecidableEq

/-- A list of sibling directories in first-child/next-sibling form. -/
inductive Forest where
  /-- No further siblings. -/
  | nil : Forest
  /-- A directory: name, own stat result, regular files, subdirectories,
  and the remaining siblings. -/
  | dir (name : String) (size : Option Nat) (files : List FileEnt)
      (children : Forest) (next : Forest) : Forest
deriving DecidableEq

/-- Python string `<` (lexicographic on code points), as used by
`sorted(files)` at source line 151. -/
def strLt (a b : String) : Bool := decide (a < b)

/-- Stable insertion of a file into an already-sorted list; together with
`sortFiles` this reproduces Python's stable `sorted` on the name keys. -/
def insertFile (f : FileEnt) : List FileEnt → List FileEnt
  | [] => [f]
  | g :: gs => if strLt g.name f.name then g :: insertFile f gs else f :: g :: gs

/-- `sorted(files)` at source line 151. -/
def sortFiles : List FileEnt → List FileEnt
  | [] => []
  | f :: fs => insertFile f (sortFiles fs)

/-- One step of Python `str.replace(old, '')`: scan left to right, delete
each non-overlapping occurrence of `old`.  The fuel is the length of the
scanned string (enough, since every step consumes at least one
character). -/
def pyReplaceAux (old : List Char) : Nat → List Char → List Char
  | _, [] => []
  | 0, s => s
  | Nat.succ fuel, c :: cs =>
    if old ≠ [] ∧ List.isPrefixOf old (c :: cs) = true then
      pyReplaceAux old fuel (List.drop old.length (c :: cs))
    else
      c :: pyReplaceAux old fuel cs

/-- Python `s.replace(old, '')`, as used at source line 141. -/
def pyReplace (old s : String) : String :=
  String.mk (pyReplaceAux old.data s.data.length s.data)

/-- `str.count(os.sep)` on Linux: the number of `'/'` characters. -/
def sepCount (s : List Char) : Nat := (s.filter (fun c => c == '/')).length

/-- `root.replace(str(root_path), '').count(os.sep)` (source line 141). -/
def levelOf (rootStr curStr : String) : Nat := sepCount (pyReplace rootStr curStr).data

/-- `' ' * 4 * level` (source lines 142 and 150). -/
def indentStr (level : Nat) : String := String.mk (List.replicate (4 * level) ' ')

/-- `os.path.basename` on Linux: the portion after the last `'/'`. -/
def basenameAux : List Char → List Char
  | [] => []
  | c :: rest =>
    if rest.contains '/' then basenameAux rest
    else if c = '/' then rest else c :: rest

/-- `os.path.basename(root)` (source line 146). -/
def basename (s : String) : String := String.mk (basenameAux s.data)

/-- The file-line mark at source line 154. -/
def fileMark : String := "📄"

/-- The schema-file mark at source line 156. -/
def schemaMark : String := "🗄️"

/-- `f'{sub_indent}{mark} {f}'` (source line 158). -/
def mkFileLine (ind mark nm : String) : String := ind ++ mark ++ " " ++ nm

/-- The directory line of source lines 144-148: rendered only when
`level > 0 or root == str(root_path)` and the basename is non-empty. -/
def dirLines (rootStr curStr : String) : List String :=
  if levelOf rootStr curStr > 0 ∨ curStr = rootStr then
    if basename curStr ≠ "" then
      [indentStr (levelOf rootStr curStr) ++ "📂 " ++ basename curStr ++ "/"]
    else []
  else []

/-- The three accumulators of `generate_tree`: `tree_lines`,
`files_to_dump` and `schema_files` (paths as part lists). -/
abbrev WalkOut := List String × List (List String) × List (List String)

/-- Componentwise concatenation of walk outputs. -/
def catOut (a b : WalkOut) : WalkOut :=
  (a.1 ++ b.1, a.2.1 ++ b.2.1, a.2.2 ++ b.2.2)

/-- The `for f in sorted(files)` loop body (source lines 151-159); the
caller passes the files already sorted. -/
def processFiles (out : String) (curParts : List String) (subIndent : String) :
    List FileEnt → WalkOut
  | [] => ([], [], [])
  | f :: fs =>
    if is_ignored (curParts ++ [f.name]) out true f.size then
      processFiles out curParts subIndent fs
    else if looks_like_schema_file (curParts ++ [f.name]) then
      (mkFileLine subIndent schemaMark f.name :: (processFiles out curParts subIndent fs).1,
       (curParts ++ [f.name]) :: (processFiles out curParts subIndent fs).2.1,
       (curParts ++ [f.name]) :: (processFiles out curParts subIndent fs).2.2)
    else
      (mkFileLine subIndent fileMark f.name :: (processFiles out curParts subIndent fs).1,
       (curParts ++ [f.name]) :: (processFiles out curParts subIndent fs).2.1,
       (processFiles out curParts subIndent fs).2.2)

/-- Everything `generate_tree` contributes for one visited directory
(source lines 141-159): the directory line, then the file lines, followed
by whatever the walk produces below it (`below`). -/
def dirStep (out rootStr curStr : String) (curParts : List String)
    (files : List FileEnt) (below : WalkOut) : WalkOut :=
  catOut (dirLines rootStr curStr, [], [])
    (catOut
      (processFiles out curParts (indentStr (levelOf rootStr curStr + 1)) (sortFiles files))
      below)

/-- The walk over a sibling list: `dirs[:] = [d for d in dirs if not
is_ignored(Path(root) / d, output_filename)]` (source line 139) prunes a
subtree before it is descended into; retained subtrees are visited in
listing order, each fully (its own triple and everything below it) before
its next sibling. -/
def walkForest (out rootStr : String) (curStr : String) (curParts : List String) :
    Forest → WalkOut
  | .nil => ([], [], [])
  | .dir name sz files children next =>
    if is_ignored (curParts ++ [name]) out false sz then
      walkForest out rootStr curStr curParts next
    else
      catOut
        (dirStep out rootStr (curStr ++ "/" ++ name) (curParts ++ [name]) files
          (walkForest out rootStr (curStr ++ "/" ++ name) (curParts ++ [name]) children))
        (walkForest out rootStr curStr curParts next)

/-- The whole walk: `os.walk` starts at the root unconditionally (no
`is_ignored` check on the root itself). `rootStr` is `str(root_path)` and
`rootParts` is `Path(root_path).parts`. -/
def walkRoot (out rootStr : String) (rootParts : List String)
    (files : List FileEnt) (children : Forest) : WalkOut :=
  dirStep out rootStr rootStr rootParts files
    (walkForest out rootStr rootStr rootParts children)

/-- `generate_tree` (source lines 131-161): the tree text is
`"\n".join(tree_lines)`. -/
def generate_tree (out rootStr : String) (rootParts : List String)
    (files : List FileEnt) (children : Forest) :
    String × List (List String) × List (List String) :=
  (String.intercalate "\n" (walkRoot out rootStr rootParts files children).1,
   (walkRoot out rootStr rootParts files children).2.1,
   (walkRoot out rootStr rootParts files children).2.2)



/-! ## Observations on tree lines (used to state traversal invariants) -/

/-- Recognise a tree line produced by the file branch of the walk: after
the indentation it starts with the mark `📄` or `🗄️` followed by a
space, whereas a directory line starts with `📂`. -/
def isFileLine (l : String) : Bool :=
  List.isPrefixOf (fileMark.data ++ [' ']) (l.data.dropWhile (fun c => c == ' '))
  || List.isPrefixOf (schemaMark.data ++ [' ']) (l.data.dropWhile (fun c => c == ' '))

/-- The filename carried by a file line: what follows the indentation,
the mark and the separating space. -/
def stripFileLine (l : String) : String :=
  if List.isPrefixOf (fileMark.data ++ [' ']) (l.data.dropWhile (fun c => c == ' ')) then
    String.mk ((l.data.dropWhile (fun c => c == ' ')).drop (fileMark.data.length + 1))
  else if List.isPrefixOf (schemaMark.data ++ [' ']) (l.data.dropWhile (fun c => c == ' ')) then
    String.mk ((l.data.dropWhile (fun c => c == ' ')).drop (schemaMark.data.length + 1))
  else
    String.mk (l.data.dropWhile (fun c => c == ' '))

/-- Mutual consistency of a walk output: the schema-file list is an
order-preserving sublist of the kept-file list, and the file-marked tree
lines correspond one-to-one and in order to the kept files, each line
carrying its kept file's name. -/
def WalkInv (w : WalkOut) : Prop :=
  w.2.2.Sublist w.2.1 ∧
  (w.1.filter isFileLine).map stripFileLine = w.2.1.map pyName

/-! ## Helper lemmas about the classifier -/

/-- A `.sql` / `.prisma` suffix makes the third or fourth disjunct of
`looks_like_schema_file` fire. -/
theorem schema_like_of_sql_prisma (parts : List String)
    (h : strLower (pySuffix (pyName parts)) = ".sql" ∨
         strLower (pySuffix (pyName parts)) = ".prisma") :
    looks_like_schema_file parts = true := by
  rcases h with h | h <;> simp [looks_like_schema_file, h]

/-- No entry of `IGNORED_FILENAMES` has a `.sql` or `.prisma` suffix. -/
theorem not_ignored_filename_of_sql_prisma (nm : String)
    (h : strLower (pySuffix nm) = ".sql" ∨ strLower (pySuffix nm) = ".prisma") :
    IGNORED_FILENAMES.contains nm = false := by
  cases hc : IGNORED_FILENAMES.contains nm
  · rfl
  · exfalso
    have hmem : nm ∈ IGNORED_FILENAMES := by simpa using hc
    fin_cases hmem <;> exact absurd h (by decide)

/-- **C1.** The claim as frozen is false on the code: a small `a.sql`
below a `node_modules` segment satisfies the claim's hypothesis (its
extension is `.sql`, so it is schema-like), yet `is_ignored` returns
`true` because of the ignored-directory-segment rule, which runs before
the schema-like exemption. -/
theorem c1_counterexample :
    strLower (pySuffix (pyName ["node_modules", "a.sql"])) = ".sql" ∧
    looks_like_schema_file ["node_modules", "a.sql"] = true ∧
    is_ignored ["node_modules", "a.sql"] "project_dump.txt" true (some 10) = true := by
  decide

/-- **C1 (amended).** For every path whose extension (case-insensitive)
is `.sql` or `.prisma`, `looks_like_schema_file` returns true; and
`is_ignored` returns false even if the extension would otherwise be
disallowed, provided the name is not the configured output filename, no
path segment is an ignored-directory name, and the path is not a file
exceeding the size threshold.  (That the name is not in
`IGNORED_FILENAMES` is proved, not assumed: no entry of that table ends
in `.sql` or `.prisma`.) -/
theorem c1_sql_prisma_schema_like_kept
    (parts : List String) (out : String) (isFile : Bool) (sz : Option Nat)
    (h : strLower (pySuffix (pyName parts)) = ".sql" ∨
         strLower (pySuffix (pyName parts)) = ".prisma") :
    looks_like_schema_file parts = true ∧
    (pyName parts ≠ out →
     parts.any (fun part => IGNORED_DIRS.contains part) = false →
     (isFile && is_large sz) = false →
     is_ignored parts out isFile sz = false) := by
  have hschema := schema_like_of_sql_prisma parts h
  refine ⟨hschema, fun hname hsegs hlarge => ?_⟩
  have hfn := not_ignored_filename_of_sql_prisma (pyName parts) h
  have hbulk : BULK_DATA_EXTENSIONS.contains (strLower (pySuffix (pyName parts))) = false := by
    rcases h with h | h <;> rw [h] <;> decide
  have hext : IGNORED_EXTENSIONS.contains (strLower (pySuffix (pyName parts))) = false := by
    rcases h with h | h <;> rw [h] <;> decide
  cases isFile <;>
    simp_all [is_ignored, hname, hfn, hsegs, hbulk, hschema, hext]

/-- Witness for the amended C1 at a concrete input. -/
theorem c1_sql_prisma_schema_like_kept_witness :
    looks_like_schema_file ["a.sql"] = true ∧
    is_ignored ["a.sql"] "project_dump.txt" true (some 10) = false :=
  ⟨(c1_sql_prisma_schema_like_kept ["a.sql"] "project_dump.txt" true (some 10)
      (Or.inl (by decide))).1,
   (c1_sql_prisma_schema_like_kept ["a.sql"] "project_dump.txt" true (some 10)
      (Or.inl (by decide))).2 (by decide) (by decide) (by decide)⟩

/-- **C2.** Every file path whose stat size exceeds the fixed 2 MiB
threshold is ignored, whatever the path looks like (in particular,
independently of schema-likeness): the large-file disjunct at source
lines 107-109 runs before the schema-like exemption at lines 119-120. -/
theorem c2_large_file_ignored
    (parts : List String) (out : String) (sz : Nat)
    (h : MAX_FILE_SIZE_BYTES < sz) :
    is_ignored parts out true (some sz) = true := by
  simp [is_ignored, is_large, h]

/-- Witness for C2: a 2 MiB + 1 byte file, even a schema-like `.sql` one. -/
theorem c2_large_file_ignored_witness :
    is_ignored ["schema.sql"] "project_dump.txt" true (some (2 * 1024 * 1024 + 1)) = true :=
  c2_large_file_ignored ["schema.sql"] "project_dump.txt" (2 * 1024 * 1024 + 1) (by decide)

/-- **C3.** Every path with a bulk-data extension
(`.csv/.json/.jsonl/.ndjson/.geojson`, lowercased) is ignored unless it
is schema-like and not large. -/
theorem c3_bulk_data_ignored
    (parts : List String) (out : String) (isFile : Bool) (sz : Option Nat)
    (hb : BULK_DATA_EXTENSIONS.contains (strLower (pySuffix (pyName parts))) = true)
    (h : looks_like_schema_file parts = false ∨ is_large sz = true) :
    is_ignored parts out isFile sz = true := by
  have hb' : strLower (pySuffix (pyName parts)) ∈ BULK_DATA_EXTENSIONS := by simpa using hb
  rcases h with h | h <;> simp [is_ignored, h] <;> tauto

/-- Witness for C3: the spec's scenario of a 100-byte `data.json`
outside any schema-hint directory and matching no schema-hint name. -/
theorem c3_bulk_data_ignored_witness :
    is_ignored ["data.json"] "project_dump.txt" true (some 100) = true :=
  c3_bulk_data_ignored ["data.json"] "project_dump.txt" true (some 100)
    (by decide) (Or.inl (by decide))



/-! ## C6: the ORM-model heuristic -/

/-- **C6.** The claim as frozen is false on the code: `models/migration.png`
has a segment in `{entities, entity, models, model}`, its extension is
neither in the ORM set nor code-like, so the claim says it is ignored --
but the filename contains the schema-hint substring `migration`, making
it schema-like, and the schema-like exemption keeps it. -/
theorem c6_counterexample :
    ORM_HINT_SEGMENTS.any
      (fun seg => (["models", "migration.png"].map strLower).contains seg) = true ∧
    ORM_MODEL_EXTENSIONS.contains
      (strLower (pySuffix (pyName ["models", "migration.png"]))) = false ∧
    ALLOWED_CODE_EXTENSIONS.contains
      (strLower (pySuffix (pyName ["models", "migration.png"]))) = false ∧
    is_ignored ["models", "migration.png"] "project_dump.txt" true (some 100) = false := by
  decide

/-- **C6 (amended).** For every file path having a segment equal
(case-insensitively) to one of `{entities, entity, models, model}`: if
its extension is in the ORM set the file is schema-like; if not, the ORM
heuristic does not apply -- the file is schema-like exactly when one of
the earlier heuristics (schema-hint directory segment, schema-hint name
substring, `.sql`/`.prisma` extension) fires -- and when it is not
schema-like it is ignored if its extension is also not code-like. -/
theorem c6_orm_heuristic
    (parts : List String) (out : String) (sz : Option Nat)
    (hseg : ORM_HINT_SEGMENTS.any (fun seg => (parts.map strLower).contains seg) = true) :
    (ORM_MODEL_EXTENSIONS.contains (strLower (pySuffix (pyName parts))) = true →
      looks_like_schema_file parts = true) ∧
    looks_like_schema_file parts =
      ((parts.map strLower).any (fun p => SCHEMA_HINT_DIRS.contains p)
       || SCHEMA_HINT_NAMES.any (fun key => listHasSub key.data (strLower (pyName parts)).data)
       || decide (strLower (pySuffix (pyName parts)) = ".sql")
       || decide (strLower (pySuffix (pyName parts)) = ".prisma")
       || ORM_MODEL_EXTENSIONS.contains (strLower (pySuffix (pyName parts)))) ∧
    (looks_like_schema_file parts = false →
      ALLOWED_CODE_EXTENSIONS.contains (strLower (pySuffix (pyName parts))) = false →
      is_ignored parts out true sz = true) := by
  have hB : looks_like_schema_file parts =
      ((parts.map strLower).any (fun p => SCHEMA_HINT_DIRS.contains p)
       || SCHEMA_HINT_NAMES.any (fun key => listHasSub key.data (strLower (pyName parts)).data)
       || decide (strLower (pySuffix (pyName parts)) = ".sql")
       || decide (strLower (pySuffix (pyName parts)) = ".prisma")
       || ORM_MODEL_EXTENSIONS.contains (strLower (pySuffix (pyName parts)))) := by
    unfold looks_like_schema_file
    rw [hseg, Bool.true_and]
  refine ⟨fun hext => ?_, hB, fun hns hna => ?_⟩
  · rw [hB, hext]; simp
  · have hna' : strLower (pySuffix (pyName parts)) ∉ ALLOWED_CODE_EXTENSIONS := by
      simpa using hna
    simp [is_ignored, hns, hna']

/-- Witness for the amended C6: `models/user.py` is schema-like,
`models/user.png` is ignored. -/
theorem c6_orm_heuristic_witness :
    looks_like_schema_file ["models", "user.py"] = true ∧
    is_ignored ["models", "user.png"] "project_dump.txt" true (some 100) = true :=
  ⟨(c6_orm_heuristic ["models", "user.py"] "project_dump.txt" (some 100)
      (by decide)).1 (by decide),
   (c6_orm_heuristic ["models", "user.png"] "project_dump.txt" (some 100)
      (by decide)).2.2 (by decide) (by decide)⟩

/-! ## C7: stat-failure degrade -/

/-- **C7.** In the embedding, `is_ignored` and `looks_like_schema_file`
are total Lean functions (the translation of the `try/except` in
`is_large` is the `Option` argument, so no failure can propagate); a stat
failure (`none`) is treated exactly like a definitely-not-large file:
`is_large` returns `false` on it, and `is_ignored` decides exactly as it
would for a 0-byte stat result, so a stat failure alone never causes a
path to be ignored. -/
theorem c7_stat_failure_degrades
    (parts : List String) (out : String) (isFile : Bool) :
    is_large none = false ∧
    is_ignored parts out isFile none = is_ignored parts out isFile (some 0) := by
  refine ⟨rfl, ?_⟩
  unfold is_ignored
  rw [show is_large none = is_large (some 0) from by decide]

/-! ## C8: determinism -/

/-- **C8.** Classification and traversal are pure functions of the path,
the static rule set and the filesystem snapshot: running `generate_tree`
twice on an identical snapshot yields the identical tree text and
identical kept-file and schema-file lists. -/
theorem c8_deterministic
    (out rootStr : String) (rootParts : List String)
    (files : List FileEnt) (children : Forest) :
    (generate_tree out rootStr rootParts files children).1 =
        (generate_tree out rootStr rootParts files children).1 ∧
    (generate_tree out rootStr rootParts files children).2.1 =
        (generate_tree out rootStr rootParts files children).2.1 ∧
    (generate_tree out rootStr rootParts files children).2.2 =
        (generate_tree out rootStr rootParts files children).2.2 :=
  ⟨rfl, rfl, rfl⟩

/-! ## Helper lemmas about the walk -/

/-- Any path with a segment in `IGNORED_DIRS` is ignored (third disjunct
of `is_ignored`). -/
theorem ignored_of_ignored_dir_segment
    (parts : List String) (out : String) (isFile : Bool) (sz : Option Nat)
    (h : parts.any (fun part => IGNORED_DIRS.contains part) = true) :
    is_ignored parts out isFile sz = true := by
  have h' : ∃ x ∈ parts, x ∈ IGNORED_DIRS := by simpa using h
  simp [is_ignored, h']

/-- Every path in the kept-files output of the file loop passed the
`is_ignored` check with its own stat result. -/
theorem processFiles_mem_kept (out : String) (cp : List String) (ind : String) :
    ∀ (fs : List FileEnt) (p : List String), p ∈ (processFiles out cp ind fs).2.1 →
      ∃ sz, is_ignored p out true sz = false := by
  intro fs
  induction fs with
  | nil => intro p hp; simp [processFiles] at hp
  | cons f fs ih =>
    intro p hp
    simp only [processFiles] at hp
    split at hp
    · exact ih p hp
    · split at hp <;>
      · simp only [List.mem_cons] at hp
        rcases hp with rfl | hp
        · exact ⟨f.size, by simp_all⟩
        · exact ih p hp

/-- Every path in the kept-files output of the walk passed the
`is_ignored` check with its own stat result. -/
theorem walkForest_mem_kept (out rootStr : String) :
    ∀ (fr : Forest) (cs : String) (cp : List String) (p : List String),
      p ∈ (walkForest out rootStr cs cp fr).2.1 →
      ∃ sz, is_ignored p out true sz = false := by
  intro fr
  induction fr with
  | nil => intro cs cp p hp; simp [walkForest] at hp
  | dir name dsz files children next ihc ihn =>
    intro cs cp p hp
    simp only [walkForest] at hp
    split at hp
    · exact ihn cs cp p hp
    · simp only [catOut, dirStep, List.mem_append, List.nil_append] at hp
      rcases hp with (hp | hp) | hp
      · exact processFiles_mem_kept out (cp ++ [name]) _ (sortFiles files) p hp
      · exact ihc (cs ++ "/" ++ name) (cp ++ [name]) p hp
      · exact ihn cs cp p hp

/-- `walkRoot` version of `walkForest_mem_kept`. -/
theorem walkRoot_mem_kept (out rootStr : String) (rootParts : List String)
    (files : List FileEnt) (children : Forest) (p : List String)
    (hp : p ∈ (walkRoot out rootStr rootParts files children).2.1) :
    ∃ sz, is_ignored p out true sz = false := by
  simp only [walkRoot, catOut, dirStep, List.mem_append, List.nil_append] at hp
  rcases hp with hp | hp
  · exact processFiles_mem_kept out rootParts _ (sortFiles files) p hp
  · exact walkForest_mem_kept out rootStr children rootStr rootParts p hp

/-! ## C4: ignored directories and pruning -/

/-- **C4.** (i) Every path with a segment equal (exactly, case-sensitively)
to an ignored-directory name is ignored; (ii) a subtree whose root
directory has such a name is pruned: the walk's output with that subtree
present equals the output with it removed, so nothing below it appears in
the tree lines, kept-files or schema-files; (iii) consequently every
kept file's path is free of ignored-directory segments. -/
theorem c4_ignored_dirs_pruned
    (parts : List String) (out : String) (isFile : Bool) (sz : Option Nat)
    (name : String) (dsz : Option Nat) (files : List FileEnt)
    (children next : Forest) (rootStr curStr : String)
    (curParts rootParts : List String) (rootFiles : List FileEnt) (fr : Forest) :
    (parts.any (fun part => IGNORED_DIRS.contains part) = true →
      is_ignored parts out isFile sz = true) ∧
    (IGNORED_DIRS.contains name = true →
      walkForest out rootStr curStr curParts (.dir name dsz files children next) =
        walkForest out rootStr curStr curParts next) ∧
    (∀ p, p ∈ (walkRoot out rootStr rootParts rootFiles fr).2.1 →
      p.any (fun part => IGNORED_DIRS.contains part) = false) := by
  refine ⟨ignored_of_ignored_dir_segment parts out isFile sz, fun h => ?_, fun p hp => ?_⟩
  · have hig : is_ignored (curParts ++ [name]) out false dsz = true := by
      apply ignored_of_ignored_dir_segment
      have hmem : name ∈ IGNORED_DIRS := by simpa using h
      simp
      exact Or.inr hmem
    simp only [walkForest]
    rw [if_pos hig]
  · obtain ⟨sz', hsz⟩ := walkRoot_mem_kept out rootStr rootParts rootFiles fr p hp
    cases hseg : p.any (fun part => IGNORED_DIRS.contains part)
    · rfl
    · rw [ignored_of_ignored_dir_segment p out true sz' hseg] at hsz
      cases hsz

/-- Witness for C4 at concrete inputs: a file below `node_modules` is
ignored; a `node_modules` subtree contributes nothing to the walk; a
concretely kept file has no ignored segment. -/
theorem c4_ignored_dirs_pruned_witness :
    is_ignored ["node_modules", "x.py"] "project_dump.txt" true (some 5) = true ∧
    walkForest "project_dump.txt" "/r" "/r" ["/", "r"]
        (.dir "node_modules" (some 0) [⟨"index.js", some 3⟩] .nil .nil) =
      walkForest "project_dump.txt" "/r" "/r" ["/", "r"] .nil ∧
    (["/", "r", "src", "a.py"] : List String).any
        (fun part => IGNORED_DIRS.contains part) = false :=
  ⟨(c4_ignored_dirs_pruned ["node_modules", "x.py"] "project_dump.txt" true (some 5)
      "node_modules" (some 0) [] .nil .nil "/r" "/r" ["/", "r"] ["/", "r"] [] .nil).1
      (by decide),
   (c4_ignored_dirs_pruned [] "project_dump.txt" true none
      "node_modules" (some 0) [⟨"index.js", some 3⟩] .nil .nil "/r" "/r" ["/", "r"]
      ["/", "r"] [] .nil).2.1 (by decide),
   (c4_ignored_dirs_pruned [] "project_dump.txt" true none
      "x" none [] .nil .nil "/r" "/r" ["/", "r"] ["/", "r"] []
      (.dir "src" (some 0) [⟨"a.py", some 7⟩] .nil .nil)).2.2
      ["/", "r", "src", "a.py"] (by decide)⟩

/-! ## C10: extensionless files -/

/-- A non-schema-like file with an empty suffix is ignored: the empty
suffix is not in `ALLOWED_CODE_EXTENSIONS`. -/
theorem ignored_of_extensionless
    (parts : List String) (out : String) (sz : Option Nat)
    (hsuf : pySuffix (pyName parts) = "")
    (hschema : looks_like_schema_file parts = false) :
    is_ignored parts out true sz = true := by
  have h1 : strLower "" ∉ ALLOWED_CODE_EXTENSIONS := by decide
  simp [is_ignored, hsuf, hschema, h1]

/-- **C10.** A file path with an empty extension that is not schema-like
(and in particular matches none of the earlier keep/ignore rules) is
ignored, since the empty suffix is not in the code-like allowlist; hence
an extensionless file appears in kept-files only if it is schema-like. -/
theorem c10_extensionless_ignored
    (parts : List String) (out rootStr : String) (sz : Option Nat)
    (rootParts : List String) (rootFiles : List FileEnt) (fr : Forest) :
    (pySuffix (pyName parts) = "" → looks_like_schema_file parts = false →
      is_ignored parts out true sz = true) ∧
    ALLOWED_CODE_EXTENSIONS.contains "" = false ∧
    (∀ p, p ∈ (walkRoot out rootStr rootParts rootFiles fr).2.1 →
      pySuffix (pyName p) = "" → looks_like_schema_file p = true) := by
  refine ⟨ignored_of_extensionless parts out sz, by decide, fun p hp hsuf => ?_⟩
  obtain ⟨sz', hsz⟩ := walkRoot_mem_kept out rootStr rootParts rootFiles fr p hp
  cases hsc : looks_like_schema_file p
  · rw [ignored_of_extensionless p out sz' hsuf hsc] at hsz
    cases hsz
  · rfl

/-- Witness for C10: `Makefile` (not schema-like) is ignored; a kept
extensionless file (`r/schema`, schema-like via the hint-directory set
applied to its own name segment) is schema-like. -/
theorem c10_extensionless_ignored_witness :
    is_ignored ["Makefile"] "project_dump.txt" true (some 50) = true ∧
    looks_like_schema_file ["r", "schema"] = true :=
  ⟨(c10_extensionless_ignored ["Makefile"] "project_dump.txt" "r" (some 50)
      ["r"] [] .nil).1 (by decide) (by decide),
   (c10_extensionless_ignored [] "project_dump.txt" "r" none
      ["r"] [⟨"schema", some 5⟩] .nil).2.2 ["r", "schema"] (by decide) (by decide)⟩

/-! ## C9: directory indentation -/

/-- Fuel irrelevance for `pyReplaceAux`: any fuel at least the string
length gives the same result. -/
theorem pyReplaceAux_fuel (old : List Char) :
    ∀ (f1 f2 : Nat) (s : List Char), s.length ≤ f1 → s.length ≤ f2 →
      pyReplaceAux old f1 s = pyReplaceAux old f2 s := by
  intro f1
  induction f1 with
  | zero =>
    intro f2 s h1 _h2
    have hs : s = [] := List.length_eq_zero.mp (Nat.le_zero.mp h1)
    subst hs
    cases f2 <;> rfl
  | succ n ih =>
    intro f2 s h1 h2
    cases s with
    | nil => cases f2 <;> rfl
    | cons c cs =>
      cases f2 with
      | zero => exact absurd h2 (by simp)
      | succ m =>
        simp only [pyReplaceAux]
        by_cases hc : old ≠ [] ∧ List.isPrefixOf old (c :: cs) = true
        · rw [if_pos hc, if_pos hc]
          have hol : 1 ≤ old.length := by
            cases hold : old with
            | nil => exact absurd hold hc.1
            | cons o os => simp
          apply ih
          · simp only [List.length_drop, List.length_cons]
            simp only [List.length_cons] at h1
            omega
          · simp only [List.length_drop, List.length_cons]
            simp only [List.length_cons] at h2
            omega
        · rw [if_neg hc, if_neg hc]
          exact congrArg (c :: ·)
            (ih m cs (by simpa using Nat.le_of_succ_le_succ (by simpa using h1))
              (by simpa using Nat.le_of_succ_le_succ (by simpa using h2)))

/-- A list is a `isPrefixOf`-prefix of itself followed by anything. -/
theorem isPrefixOf_append_self : ∀ (l t : List Char), List.isPrefixOf l (l ++ t) = true := by
  intro l t
  induction l with
  | nil => cases t <;> rfl
  | cons c cs ih => simp [List.isPrefixOf, ih]

/-- Deleting every occurrence of `old` from `old ++ rest` first deletes
the leading occurrence and then proceeds exactly as on `rest`. -/
theorem pyReplaceAux_strip (old rest : List Char) :
    pyReplaceAux old (old ++ rest).length (old ++ rest) =
      pyReplaceAux old rest.length rest := by
  cases old with
  | nil => simp
  | cons o os =>
    have hpre : List.isPrefixOf (o :: os) ((o :: os) ++ rest) = true :=
      isPrefixOf_append_self _ _
    simp only [List.cons_append, List.length_cons, pyReplaceAux]
    rw [if_pos ⟨List.cons_ne_nil o os, hpre⟩]
    simp only [List.append_eq]
    have hdrop : List.drop (os.length + 1) (o :: (os ++ rest)) = rest := by
      rw [List.drop_succ_cons]
      exact List.drop_left os rest
    rw [hdrop]
    exact pyReplaceAux_fuel (o :: os) ((os ++ rest).length) rest.length rest
      (by rw [List.length_append]; omega) le_rfl

/-- `(s ++ t).data = s.data ++ t.data` for strings. -/
theorem strData_append (s t : String) : (s ++ t).data = s.data ++ t.data := rfl

/-- Python `(old ++ rest).replace(old, '') = rest.replace(old, '')`. -/
theorem pyReplace_append_self (old rest : String) :
    pyReplace old (old ++ rest) = pyReplace old rest := by
  unfold pyReplace
  rw [strData_append]
  exact congrArg String.mk (by simpa using pyReplaceAux_strip old.data rest.data)

/-- **C9.** The claim as frozen is false on the code.  With root path
`/a` containing a subdirectory `a` which contains a subdirectory `b`,
the walk renders the line for the directory `/a/a/b` with a single
indentation unit (`4` spaces), although two path separators stand
between the root and that directory (its path relative to the root is
`/a/b`): the source computes the level with a global
`str.replace(str(root_path), '')`, which also deletes the second
occurrence of `/a`.  (The intermediate directory `/a/a` gets no line at
all, its computed level being `0`.) -/
theorem c9_counterexample :
    (walkRoot "project_dump.txt" "/a" ["/", "a"] []
        (.dir "a" (some 0) [] (.dir "b" (some 0) [] .nil .nil) .nil)).1 =
      ["📂 a/", "    📂 b/"] ∧
    ("/a/a/b" : String) = "/a" ++ "/a/b" ∧
    sepCount ("/a/b" : String).data = 2 ∧
    "    📂 b/" ≠ indentStr 2 ++ "📂 " ++ "b" ++ "/" := by
  decide

/-- **C9 (amended).** Every directory line rendered during traversal has
the form `'📂 <dirname>/'` preceded by 4 spaces per level, where the
level is the count of path separators left in the directory's path
string after deleting every occurrence of the root path string
(Python `str.replace`); whenever the root string occurs in the
directory's path only as its leading prefix, that level equals the count
of path separators in the part of the path following the root prefix. -/
theorem c9_dir_line_indentation (rootStr curStr l : String)
    (hl : l ∈ dirLines rootStr curStr) :
    l = indentStr (levelOf rootStr curStr) ++ "📂 " ++ basename curStr ++ "/" ∧
    ∀ rest : String, curStr = rootStr ++ rest → pyReplace rootStr rest = rest →
      levelOf rootStr curStr = sepCount rest.data := by
  constructor
  · unfold dirLines at hl
    split at hl
    · split at hl
      · simpa using hl
      · cases hl
    · cases hl
  · intro rest hcur hfix
    subst hcur
    unfold levelOf
    rw [pyReplace_append_self, hfix]

/-- Witness for the amended C9 at a concrete input: the line rendered
for directory `/r/s` under root `/r`. -/
theorem c9_dir_line_indentation_witness :
    "    📂 s/" = indentStr (levelOf "/r" "/r/s") ++ "📂 " ++ basename "/r/s" ++ "/" ∧
    levelOf "/r" "/r/s" = sepCount ("/s" : String).data :=
  ⟨(c9_dir_line_indentation "/r" "/r/s" "    📂 s/" (by decide)).1,
   (c9_dir_line_indentation "/r" "/r/s" "    📂 s/" (by decide)).2 "/s"
     (by decide) (by decide)⟩

/-! ## C5: mutual consistency of the walk outputs -/

/-- Leading spaces are dropped through an all-space indentation block. -/
theorem dropWhile_space_replicate (n : Nat) (l : List Char) :
    (List.replicate n ' ' ++ l).dropWhile (fun c => c == ' ') =
      l.dropWhile (fun c => c == ' ') := by
  induction n with
  | zero => rfl
  | succ m ih =>
    rw [List.replicate_succ, List.cons_append, List.dropWhile_cons,
      if_pos (show (' ' == ' ') = true from rfl)]
    exact ih

/-- A list that `dropWhile` leaves intact stays intact with anything
appended. -/
theorem dropWhile_space_append_intact (xs ys : List Char)
    (h : xs.dropWhile (fun c => c == ' ') = xs) (hne : xs ≠ []) :
    (xs ++ ys).dropWhile (fun c => c == ' ') = xs ++ ys := by
  cases xs with
  | nil => exact absurd rfl hne
  | cons a as =>
    have hb : (a == ' ') = false := by
      by_contra hb
      have hb' : (a == ' ') = true := by revert hb; cases (a == ' ') <;> simp
      rw [List.dropWhile_cons, if_pos hb'] at h
      have hlen := congrArg List.length h
      have hsuf : List.dropWhile (fun c => c == ' ') as <:+ as :=
        List.dropWhile_suffix _
      have hle : (List.dropWhile (fun c => c == ' ') as).length ≤ as.length :=
        hsuf.sublist.length_le
      simp at hlen
      omega
    rw [List.cons_append, List.dropWhile_cons, if_neg (by simp [hb])]

/-- The character data of a rendered file line. -/
theorem mkFileLine_data (k : Nat) (mark nm : String) :
    (mkFileLine (indentStr k) mark nm).data =
      List.replicate (4 * k) ' ' ++ (mark.data ++ (' ' :: nm.data)) := by
  have hsp : (" " : String).data = [' '] := rfl
  simp [mkFileLine, indentStr, strData_append, hsp, List.append_assoc]

/-- Dropping the indentation of a rendered file line leaves the mark,
the space and the name. -/
theorem dropWhile_space_mkFileLine (mark nm : String) (k : Nat)
    (h : mark.data.dropWhile (fun c => c == ' ') = mark.data) (hne : mark.data ≠ []) :
    (mkFileLine (indentStr k) mark nm).data.dropWhile (fun c => c == ' ')
      = mark.data ++ (' ' :: nm.data) := by
  rw [mkFileLine_data, dropWhile_space_replicate]
  exact dropWhile_space_append_intact _ _ h hne

/-- A `📄`-marked line is recognised as a file line. -/
theorem isFileLine_file_line (k : Nat) (nm : String) :
    isFileLine (mkFileLine (indentStr k) fileMark nm) = true := by
  unfold isFileLine
  rw [dropWhile_space_mkFileLine fileMark nm k (by decide) (by decide)]
  have h : fileMark.data ++ (' ' :: nm.data) = (fileMark.data ++ [' ']) ++ nm.data := by simp
  rw [h, isPrefixOf_append_self]
  rfl

/-- A `🗄️`-marked line is recognised as a file line. -/
theorem isFileLine_schema_line (k : Nat) (nm : String) :
    isFileLine (mkFileLine (indentStr k) schemaMark nm) = true := by
  unfold isFileLine
  rw [dropWhile_space_mkFileLine schemaMark nm k (by decide) (by decide)]
  have h : schemaMark.data ++ (' ' :: nm.data) = (schemaMark.data ++ [' ']) ++ nm.data := by simp
  rw [h, isPrefixOf_append_self]
  simp

/-- Stripping a `📄`-marked line recovers the file name. -/
theorem stripFileLine_file_line (k : Nat) (nm : String) :
    stripFileLine (mkFileLine (indentStr k) fileMark nm) = nm := by
  unfold stripFileLine
  rw [dropWhile_space_mkFileLine fileMark nm k (by decide) (by decide)]
  have h : fileMark.data ++ (' ' :: nm.data) = (fileMark.data ++ [' ']) ++ nm.data := by simp
  rw [h, if_pos (isPrefixOf_append_self _ _)]
  have hlen : fileMark.data.length + 1 = (fileMark.data ++ [' ']).length := by simp
  rw [hlen, List.drop_left]

/-- Stripping a `🗄️`-marked line recovers the file name. -/
theorem stripFileLine_schema_line (k : Nat) (nm : String) :
    stripFileLine (mkFileLine (indentStr k) schemaMark nm) = nm := by
  unfold stripFileLine
  rw [dropWhile_space_mkFileLine schemaMark nm k (by decide) (by decide)]
  have hfm : List.isPrefixOf (fileMark.data ++ [' '])
      (schemaMark.data ++ (' ' :: nm.data)) = false := by
    have hcc : ('📄' == '🗄') = false := by decide
    show List.isPrefixOf ('📄' :: [' ']) ('🗄' :: ('\uFE0F' :: (' ' :: nm.data))) = false
    simp [List.isPrefixOf, hcc]
  rw [if_neg (by simp [hfm])]
  have h : schemaMark.data ++ (' ' :: nm.data) = (schemaMark.data ++ [' ']) ++ nm.data := by simp
  rw [h, if_pos (isPrefixOf_append_self _ _)]
  have hlen : schemaMark.data.length + 1 = (schemaMark.data ++ [' ']).length := by simp
  rw [hlen, List.drop_left]

/-- A line whose first non-space character is neither mark is not a file
line. -/
theorem isFileLine_false_of_data (l : String) (n : Nat) (x : Char) (xs : List Char)
    (hd : l.data = List.replicate n ' ' ++ (x :: xs))
    (h1 : (x == ' ') = false) (h2 : ('📄' == x) = false) (h3 : ('🗄' == x) = false) :
    isFileLine l = false := by
  unfold isFileLine
  rw [hd, dropWhile_space_replicate, List.dropWhile_cons, if_neg (by simp [h1])]
  have p1 : List.isPrefixOf (fileMark.data ++ [' ']) (x :: xs) = false := by
    show List.isPrefixOf ('📄' :: [' ']) (x :: xs) = false
    simp [List.isPrefixOf, h2]
  have p2 : List.isPrefixOf (schemaMark.data ++ [' ']) (x :: xs) = false := by
    show List.isPrefixOf ('🗄' :: ('\uFE0F' :: [' '])) (x :: xs) = false
    simp [List.isPrefixOf, h3]
  rw [p1, p2]
  rfl

/-- Directory lines are never counted as file lines. -/
theorem walkInv_dirLines (rootStr curStr : String) :
    WalkInv (dirLines rootStr curStr, [], []) := by
  have hfilter : (dirLines rootStr curStr).filter isFileLine = [] := by
    unfold dirLines
    split
    · split
      · have hdata : (indentStr (levelOf rootStr curStr) ++ "📂 " ++ basename curStr
            ++ "/").data = List.replicate (4 * levelOf rootStr curStr) ' '
              ++ ('📂' :: (' ' :: (basename curStr).data ++ ['/'])) := by
          have h1 : ("📂 " : String).data = ['📂', ' '] := rfl
          have h2 : ("/" : String).data = ['/'] := rfl
          simp [indentStr, strData_append, h1, h2]
        have hf := isFileLine_false_of_data _ _ _ _ hdata
          (by decide) (by decide) (by decide)
        simp [hf]
      · rfl
    · rfl
  refine ⟨List.nil_sublist _, ?_⟩
  show ((dirLines rootStr curStr).filter isFileLine).map stripFileLine =
    ([] : List (List String)).map pyName
  rw [hfilter]
  rfl

/-- The empty output satisfies the invariant. -/
theorem walkInv_nil : WalkInv ([], [], []) :=
  ⟨List.nil_sublist _, rfl⟩

/-- The invariant is preserved by concatenation of outputs. -/
theorem walkInv_cat (a b : WalkOut) (ha : WalkInv a) (hb : WalkInv b) :
    WalkInv (catOut a b) := by
  constructor
  · exact List.Sublist.append ha.1 hb.1
  · show ((a.1 ++ b.1).filter isFileLine).map stripFileLine =
      (a.2.1 ++ b.2.1).map pyName
    rw [List.filter_append, List.map_append, List.map_append, ha.2, hb.2]

/-- The last component of an extended path is its name. -/
theorem pyName_concat (l : List String) (a : String) : pyName (l ++ [a]) = a := by
  unfold pyName
  exact List.getLastD_concat _ _ _

/-- The file loop maintains the invariant. -/
theorem walkInv_processFiles (out : String) (cp : List String) (k : Nat) :
    ∀ fs : List FileEnt, WalkInv (processFiles out cp (indentStr k) fs) := by
  intro fs
  induction fs with
  | nil => exact walkInv_nil
  | cons f fs ih =>
    unfold processFiles
    split
    · exact ih
    · split
      · refine ⟨List.Sublist.cons₂ _ ih.1, ?_⟩
        show ((mkFileLine (indentStr k) schemaMark f.name ::
            (processFiles out cp (indentStr k) fs).1).filter isFileLine).map stripFileLine =
          ((cp ++ [f.name]) :: (processFiles out cp (indentStr k) fs).2.1).map pyName
        rw [List.filter_cons_of_pos (isFileLine_schema_line k f.name),
          List.map_cons, List.map_cons, ih.2, stripFileLine_schema_line, pyName_concat]
      · refine ⟨List.Sublist.cons _ ih.1, ?_⟩
        show ((mkFileLine (indentStr k) fileMark f.name ::
            (processFiles out cp (indentStr k) fs).1).filter isFileLine).map stripFileLine =
          ((cp ++ [f.name]) :: (processFiles out cp (indentStr k) fs).2.1).map pyName
        rw [List.filter_cons_of_pos (isFileLine_file_line k f.name),
          List.map_cons, List.map_cons, ih.2, stripFileLine_file_line, pyName_concat]

/-- The walk maintains the invariant below every directory. -/
theorem walkInv_walkForest (out rootStr : String) :
    ∀ (fr : Forest) (cs : String) (cp : List String),
      WalkInv (walkForest out rootStr cs cp fr) := by
  intro fr
  induction fr with
  | nil => intro cs cp; exact walkInv_nil
  | dir name dsz files children next ihc ihn =>
    intro cs cp
    unfold walkForest
    split
    · exact ihn cs cp
    · refine walkInv_cat _ _ ?_ (ihn cs cp)
      unfold dirStep
      exact walkInv_cat _ _ (walkInv_dirLines _ _)
        (walkInv_cat _ _ (walkInv_processFiles _ _ _ _) (ihc _ _))

/-- **C5.** For every traversal result, the schema-file list is an
order-preserving sublist of the kept-file list, and the tree lines marked
`📄` or `🗄️` correspond one-to-one, in the same relative order, with the
entries of the kept-file list (the i-th file-marked line carries the name
of the i-th kept file). -/
theorem c5_outputs_consistent (out rootStr : String) (rootParts : List String)
    (files : List FileEnt) (children : Forest) :
    ((generate_tree out rootStr rootParts files children).2.2).Sublist
      ((generate_tree out rootStr rootParts files children).2.1) ∧
    ((walkRoot out rootStr rootParts files children).1.filter isFileLine).map stripFileLine =
      ((generate_tree out rootStr rootParts files children).2.1).map pyName := by
  have h : WalkInv (walkRoot out rootStr rootParts files children) := by
    unfold walkRoot dirStep
    exact walkInv_cat _ _ (walkInv_dirLines _ _)
      (walkInv_cat _ _ (walkInv_processFiles _ _ _ _) (walkInv_walkForest _ _ _ _ _))
  exact ⟨h.1, h.2⟩

end ProjectDumper
